import Mathlib

/-
Shallow embedding of the ARM7TDMI instruction-execution core
(src/src/arm7tdmi/arm/exec.rs) of the rustboyadvance-ng repository.

Machine integers are represented as Nat (unsigned 32-bit values, kept
below 2 ^ 32 by explicit reductions) and Int (signed i32 values in the
range [-2 ^ 31, 2 ^ 31), normalised by wrapSigned32).  Rust casts
`as i32` / `as u32` become toI32 / toU32, and i32 wrapping_add becomes
wadd32.  Collaborators that live outside the provided source file
(register-file accessors, condition evaluation, barrel shifter, ALU,
PSR internals, mode switching, exception entry) are modelled from the
specification; each such definition carries a doc comment starting
with the words: Modelled from the spec.
-/

/-- Normalise an integer into the signed 32-bit range, the value an
i32 with the same residue modulo 2 ^ 32 would hold. -/
def wrapSigned32 (x : Int) : Int := (x + 2 ^ 31) % 2 ^ 32 - 2 ^ 31

/-- Rust cast u32 to i32 (reinterpretation of the bit pattern). -/
def toI32 (n : Nat) : Int := wrapSigned32 (n : Int)

/-- Rust i32 wrapping_add. -/
def wadd32 (a b : Int) : Int := wrapSigned32 (a + b)

/-- Rust cast i32 to u32 (reinterpretation of the bit pattern). -/
def toU32 (x : Int) : Nat := (x % 2 ^ 32).toNat

/-- Signed value of the low byte, as in Rust casts u8 to i8. -/
def signedByte (n : Nat) : Int := (n % 256 + 128) % 256 - 128

/-- Signed value of the low halfword, as in Rust casts u16 to i16. -/
def signedHalf (n : Nat) : Int := (n % 65536 + 32768) % 65536 - 32768

/-- Rust cast chain u8 to i8 to u32: sign-extend a byte to 32 bits. -/
def signExtend8 (n : Nat) : Nat := toU32 (signedByte n)

/-- Rust cast chain u16 to i16 to u32: sign-extend a halfword to 32 bits. -/
def signExtend16 (n : Nat) : Nat := toU32 (signedHalf n)

/-- u32 rotate_right. -/
def rotateRight32 (x r : Nat) : Nat :=
  let x := x % 2 ^ 32
  let r := r % 32
  ((x >>> r) ||| ((x <<< (32 - r)) % 2 ^ 32)) % 2 ^ 32

/-- Pipeline action returned by every handler: advance the PC normally
or flush the prefetch queue (CpuPipelineAction in the source). -/
inductive CpuPipelineAction where
  | IncPC
  | Flush
deriving DecidableEq

/-- Structured execution errors (CpuError in the source).  The decoded
instruction payload of UnimplementedCpuInstruction is reduced to the
address and raw encoding it carries. -/
inductive CpuError where
  | IllegalInstruction
  | UnimplementedCpuInstruction (pc raw : Nat)
deriving DecidableEq

/-- The distinct Rust panic sites of the execution core. -/
inductive PanicMsg where
  | spsrInvalidMode
  | invalidPsrMode
  | invalidHsFlags
  | unreachableOperand2
  | unimplementedUserTransfer
deriving DecidableEq

/-- A fatal outcome: either a structured CpuError propagated through the
Result type, or a Rust panic. -/
inductive CpuFatal where
  | err (e : CpuError)
  | panicked (m : PanicMsg)
deriving DecidableEq

/-- Processor modes of the ARM7TDMI. -/
inductive CpuMode where
  | User
  | Fiq
  | Irq
  | Supervisor
  | Abort
  | Undefined
  | System
deriving DecidableEq

/-- Modelled from the spec: the SPSR bank holds one slot per privileged
mode that supports banking; the unprivileged User mode and the System
mode have no banked slot. -/
def CpuMode.spsr_index : CpuMode → Option (Fin 5)
  | .Fiq => some 0
  | .Irq => some 1
  | .Supervisor => some 2
  | .Abort => some 3
  | .Undefined => some 4
  | _ => none

/-- Modelled from the spec: decode of the 5-bit mode field of a status
register image (standard ARM mode encodings); unknown encodings have no
mode and make the accessors below panic as in the source. -/
def decodeMode (n : Nat) : Option CpuMode :=
  if n = 0x10 then some .User
  else if n = 0x11 then some .Fiq
  else if n = 0x12 then some .Irq
  else if n = 0x13 then some .Supervisor
  else if n = 0x17 then some .Abort
  else if n = 0x1B then some .Undefined
  else if n = 0x1F then some .System
  else none

/-- ARM or THUMB execution state. -/
inductive CpuState where
  | ARM
  | THUMB
deriving DecidableEq

/-- Modelled from the spec: a status register (RegPSR) wraps a raw
32-bit value holding condition flags (bits 31 to 28), the execution
state (bit 5) and the mode field (low 5 bits). -/
structure RegPSR where
  raw : Nat
deriving DecidableEq

def RegPSR.new (v : Nat) : RegPSR := ⟨v % 2 ^ 32⟩

def RegPSR.n_flag (p : RegPSR) : Bool := p.raw.testBit 31

def RegPSR.z_flag (p : RegPSR) : Bool := p.raw.testBit 30

def RegPSR.c_flag (p : RegPSR) : Bool := p.raw.testBit 29

def RegPSR.v_flag (p : RegPSR) : Bool := p.raw.testBit 28

def RegPSR.is_thumb (p : RegPSR) : Bool := p.raw.testBit 5

def RegPSR.mode (p : RegPSR) : Option CpuMode := decodeMode (p.raw % 32)

/-- Modelled from the spec: set the execution-state bit of a status
register (bit 5: THUMB when set, ARM when clear). -/
def RegPSR.set_state (p : RegPSR) (s : CpuState) : RegPSR :=
  match s with
  | .THUMB => ⟨(p.raw % 2 ^ 32) ||| 2 ^ 5⟩
  | .ARM => ⟨(p.raw % 2 ^ 32) &&& (2 ^ 32 - 1 - 2 ^ 5)⟩

/-- One observable access on the external memory bus. -/
inductive MemAccess where
  | read8 (addr : Nat)
  | read16 (addr : Nat)
  | read32 (addr : Nat)
  | write8 (addr val : Nat)
  | write16 (addr val : Nat)
  | write32 (addr val : Nat)
deriving DecidableEq

/-- The address of a bus access. -/
def MemAccess.addrOf : MemAccess → Nat
  | .read8 a => a
  | .read16 a => a
  | .read32 a => a
  | .write8 a _ => a
  | .write16 a _ => a
  | .write32 a _ => a

/-- The external memory bus: a byte-addressed memory together with the
trace of the accesses issued so far (the trace makes the no-bus-access
and which-address-was-used properties statable). -/
structure Bus where
  mem : Nat → Nat
  trace : List MemAccess

def Bus.read8val (b : Bus) (a : Nat) : Nat := b.mem a % 256

def Bus.read16val (b : Bus) (a : Nat) : Nat :=
  b.read8val a + 2 ^ 8 * b.read8val (a + 1)

def Bus.read32val (b : Bus) (a : Nat) : Nat :=
  b.read8val a + 2 ^ 8 * b.read8val (a + 1) +
    2 ^ 16 * b.read8val (a + 2) + 2 ^ 24 * b.read8val (a + 3)

def Bus.load_8 (b : Bus) (a : Nat) : Nat × Bus :=
  (b.read8val a, { b with trace := b.trace ++ [.read8 a] })

def Bus.load_16 (b : Bus) (a : Nat) : Nat × Bus :=
  (b.read16val a, { b with trace := b.trace ++ [.read16 a] })

def Bus.load_32 (b : Bus) (a : Nat) : Nat × Bus :=
  (b.read32val a, { b with trace := b.trace ++ [.read32 a] })

def Bus.store_8 (b : Bus) (a v : Nat) : Bus :=
  { mem := fun x => if x = a then v % 256 else b.mem x,
    trace := b.trace ++ [.write8 a v] }

def Bus.store_16 (b : Bus) (a v : Nat) : Bus :=
  { mem := fun x =>
      if x = a then v % 256
      else if x = a + 1 then v / 2 ^ 8 % 256
      else b.mem x,
    trace := b.trace ++ [.write16 a v] }

def Bus.store_32 (b : Bus) (a v : Nat) : Bus :=
  { mem := fun x =>
      if x = a then v % 256
      else if x = a + 1 then v / 2 ^ 8 % 256
      else if x = a + 2 then v / 2 ^ 16 % 256
      else if x = a + 3 then v / 2 ^ 24 % 256
      else b.mem x,
    trace := b.trace ++ [.write32 a v] }

/-- The CPU core state: the register file, the dedicated pc field
mirroring register 15, the current and banked saved status registers,
the cycle counter, and the list of performed mode changes (the record
of calls to change_mode, which makes the exactly-one-mode-change
property statable). -/
structure Core where
  gpr : Fin 16 → Nat
  pc : Nat
  cpsr : RegPSR
  spsr : Fin 5 → RegPSR
  cycles : Nat
  modeChanges : List CpuMode

/-- Register 15 is the program counter. -/
def REG_PC : Fin 16 := 15

/-- Modelled from the spec: read of the register file; register 15 is
the program counter, read from the dedicated pc field. -/
def Core.get_reg (c : Core) (r : Fin 16) : Nat :=
  if r = REG_PC then c.pc else c.gpr r

/-- Modelled from the spec: write to the register file; register 15 is
the program counter, written to the dedicated pc field. -/
def Core.set_reg (c : Core) (r : Fin 16) (v : Nat) : Core :=
  if r = REG_PC then { c with pc := v % 2 ^ 32 }
  else { c with gpr := Function.update c.gpr r (v % 2 ^ 32) }

/-- Charge one internal cycle. -/
def Core.add_cycle (c : Core) : Core := { c with cycles := c.cycles + 1 }

/-- Modelled from the spec: the instruction width, 4 bytes in ARM state
and 2 bytes in THUMB state. -/
def Core.word_size (c : Core) : Nat := if c.cpsr.is_thumb then 2 else 4

/-- Modelled from the spec: a mode change swaps the active banked
register set atomically with the mode field; the spec leaves the bank
contents unspecified, so the model records each performed mode change
as an event on the modeChanges list. -/
def Core.change_mode (c : Core) (new_mode : CpuMode) : Core :=
  { c with modeChanges := c.modeChanges ++ [new_mode] }

/-- Exception classes raised by the core (only the software interrupt
is raised from the ARM execution path). -/
inductive ExceptionKind where
  | SoftwareInterrupt
deriving DecidableEq

/-- Modelled from the spec: the exception-entry collaborator; after the
call, the PC points at the exception vector, the CPSR reflects the new
mode, the link register holds the return address, and the SPSR bank of
the target mode holds the pre-exception CPSR.  The software interrupt
enters Supervisor mode with vector address 8. -/
def Core.exception (c : Core) (_e : ExceptionKind) : Core :=
  let old_cpsr := c.cpsr
  let c := c.change_mode .Supervisor
  let c := { c with spsr := Function.update c.spsr 2 old_cpsr }
  let c := { c with gpr := Function.update c.gpr 14 c.pc }
  { c with pc := 8, cpsr := ⟨old_cpsr.raw % 2 ^ 32 / 32 * 32 + 0x13⟩ }

/-- The 4-bit ARM condition codes. -/
inductive ArmCond where
  | EQ | NE | HS | LO | MI | PL | VS | VC
  | HI | LS | GE | LT | GT | LE | AL | NV
deriving DecidableEq

/-- Modelled from the spec: evaluation of the condition field against
the current flags (standard ARM condition codes: equal, not-equal,
carry set and clear, negative, overflow, signed and unsigned
comparisons, always, never). -/
def Core.check_arm_cond (c : Core) (cond : ArmCond) : Bool :=
  let n := c.cpsr.n_flag
  let z := c.cpsr.z_flag
  let cy := c.cpsr.c_flag
  let v := c.cpsr.v_flag
  match cond with
  | .EQ => z
  | .NE => !z
  | .HS => cy
  | .LO => !cy
  | .MI => n
  | .PL => !n
  | .VS => v
  | .VC => !v
  | .HI => cy && !z
  | .LS => !cy || z
  | .GE => n == v
  | .LT => n != v
  | .GT => !z && (n == v)
  | .LE => z || (n != v)
  | .AL => true
  | .NV => false

/-- The data-processing opcodes. -/
inductive AluOpCode where
  | AND | EOR | SUB | RSB | ADD | ADC | SBC | RSC
  | TST | TEQ | CMP | CMN | ORR | MOV | BIC | MVN
deriving DecidableEq

/-- The comparison opcodes inherently update the flags. -/
def AluOpCode.is_setting_flags : AluOpCode → Bool
  | .TST => true
  | .TEQ => true
  | .CMP => true
  | .CMN => true
  | _ => false

/-- The comparison opcodes produce no writable result; every other
opcode does. -/
def AluOpCode.produces_result (op : AluOpCode) : Bool := !op.is_setting_flags

/-- Barrel-shifter shift types. -/
inductive BsShiftType where
  | LSL | LSR | ASR | ROR
deriving DecidableEq

/-- A shift amount: an immediate, or the low byte of a register. -/
inductive ShiftAmount where
  | Imm (n : Nat)
  | Reg (r : Fin 16)
deriving DecidableEq

/-- A shift descriptor. -/
structure ShiftDesc where
  typ : BsShiftType
  amount : ShiftAmount
deriving DecidableEq

/-- An operand descriptor handed to the barrel shifter (the
BarrelShifterValue type of the source). -/
inductive BarrelShifterValue where
  | ImmediateValue (v : Int)
  | RotatedImmediate (imm rot : Nat)
  | ShiftedRegister (reg : Fin 16) (shift : ShiftDesc) (added : Bool)
deriving DecidableEq

/-- A data-processing second operand is a rotated immediate or a
shifted register; the plain immediate form is unreachable there. -/
def BarrelShifterValue.dp_valid : BarrelShifterValue → Bool
  | .ImmediateValue _ => false
  | _ => true

def Core.shift_amount (c : Core) : ShiftAmount → Nat
  | .Imm n => n
  | .Reg r => c.get_reg r % 256

/-- Modelled from the spec: the external barrel shifter applied to a
register operand (shift computation internals are outside the core;
the zero-shift special cases are elided with the plain semantics). -/
def Core.apply_shift (c : Core) (reg : Fin 16) (shift : ShiftDesc) : Int :=
  let v := c.get_reg reg % 2 ^ 32
  let a := c.shift_amount shift.amount
  match shift.typ with
  | .LSL => toI32 ((v <<< a) % 2 ^ 32)
  | .LSR => toI32 (v >>> a)
  | .ASR => wrapSigned32 (Int.ediv (toI32 v) (2 ^ a))
  | .ROR => toI32 (rotateRight32 v a)

/-- Modelled from the spec: the register-shift sub-operation of data
processing; it charges no cycle itself (the caller does) and always
succeeds in this model. -/
def Core.register_shift (c : Core) (reg : Fin 16) (shift : ShiftDesc) :
    Except CpuError Int :=
  .ok (c.apply_shift reg shift)

/-- Modelled from the spec: the shifted offset value of an addressing
mode descriptor, immediate or shifted register, added or subtracted per
the sign flag folded into the descriptor. -/
def Core.get_barrel_shifted_value (c : Core) (v : BarrelShifterValue) : Int :=
  match v with
  | .ImmediateValue x => x
  | .RotatedImmediate imm rot => toI32 (rotateRight32 imm rot)
  | .ShiftedRegister reg shift added =>
      let r := c.apply_shift reg shift
      if added then r else -r

/-- Modelled from the spec: update the N and Z condition flags from a
32-bit result (the C and V updates belong to the external ALU internals
and are left to it; the visible core carries a TODO for the carry). -/
def Core.set_nz (c : Core) (result : Nat) : Core :=
  let r := result % 2 ^ 32
  let raw := c.cpsr.raw
  let raw := if r = 0 then raw ||| 2 ^ 30 else raw &&& (2 ^ 32 - 1 - 2 ^ 30)
  let raw := if r.testBit 31 then raw ||| 2 ^ 31 else raw &&& (2 ^ 32 - 1 - 2 ^ 31)
  { c with cpsr := ⟨raw⟩ }

/-- Modelled from the spec: the arithmetic of the external ALU, on the
unsigned 32-bit images of the operands, wrapping modulo 2 ^ 32. -/
def alu_compute (c : Core) (opcode : AluOpCode) (op1 op2 : Int) : Int :=
  let u1 := toU32 op1
  let u2 := toU32 op2
  let carry : Nat := if c.cpsr.c_flag then 1 else 0
  toI32 (match opcode with
  | .AND => u1 &&& u2
  | .EOR => u1 ^^^ u2
  | .SUB => u1 + (2 ^ 32 - u2)
  | .RSB => u2 + (2 ^ 32 - u1)
  | .ADD => u1 + u2
  | .ADC => u1 + u2 + carry
  | .SBC => u1 + (2 ^ 32 - u2) + carry + (2 ^ 32 - 1)
  | .RSC => u2 + (2 ^ 32 - u1) + carry + (2 ^ 32 - 1)
  | .TST => u1 &&& u2
  | .TEQ => u1 ^^^ u2
  | .CMP => u1 + (2 ^ 32 - u2)
  | .CMN => u1 + u2
  | .ORR => u1 ||| u2
  | .MOV => u2
  | .BIC => u1 &&& (2 ^ 32 - 1 - u2)
  | .MVN => 2 ^ 32 - 1 - u2)

/-- Modelled from the spec: the external ALU; computes the operation,
updates the flags when requested, and returns a writable result except
for the comparison-only opcodes. -/
def Core.alu (c : Core) (opcode : AluOpCode) (op1 op2 : Int)
    (set_flags : Bool) : Core × Option Int :=
  let result := alu_compute c opcode op1 op2
  let c := if set_flags then c.set_nz (toU32 result) else c
  (c, if opcode.produces_result then some result else none)

/-- The format classes dispatched by exec_arm; the formats with no
handler fall to the unimplemented-instruction error. -/
inductive ArmFormat where
  | BX | B_BL | DP | SWI | LDR_STR | LDR_STR_HS_IMM | LDR_STR_HS_REG
  | LDM_STM | MSR_REG | MRS | MUL_MLA | SWP
deriving DecidableEq

/-- Transfer kinds of the halfword and signed form. -/
inductive ArmHalfwordTransferType where
  | SignedByte
  | SignedHalfwords
  | UnsignedHalfwords
deriving DecidableEq

/-- The decoded instruction descriptor produced by the external
decoder, carrying the condition, format class, originating address,
raw encoding, and class-specific fields (the accessor methods of the
source become fields here). -/
structure ArmInstruction where
  cond : ArmCond
  fmt : ArmFormat
  pc : Nat
  raw : Nat
  rn : Fin 16
  rd : Fin 16
  rm : Fin 16
  link_flag : Bool
  load_flag : Bool
  write_back_flag : Bool
  pre_index_flag : Bool
  add_offset_flag : Bool
  spsr_flag : Bool
  set_cond_flag : Bool
  psr_and_force_user_flag : Bool
  branch_offset : Int
  transfer_size : Nat
  halfword_data_transfer_type : ArmHalfwordTransferType
  opcode : AluOpCode
  operand2 : BarrelShifterValue
  ldr_str_offset : BarrelShifterValue
  ldr_str_hs_offset : BarrelShifterValue
  register_list : List (Fin 16)

/-- The outcome of one handler: the core and bus after execution, and
either a pipeline action or a fatal outcome. -/
structure Outcome where
  core : Core
  bus : Bus
  res : Except CpuFatal CpuPipelineAction

/-- Branch, with optional link (exec_b_bl). -/
def exec_b_bl (c : Core) (bus : Bus) (insn : ArmInstruction) : Outcome :=
  let c :=
    if insn.link_flag then
      c.set_reg 14 (((insn.pc + c.word_size) % 2 ^ 32) &&& (2 ^ 32 - 2))
    else c
  let c := { c with pc := toU32 (wadd32 (toI32 c.pc) insn.branch_offset) &&& (2 ^ 32 - 2) }
  ⟨c, bus, .ok .Flush⟩

/-- Branch and exchange (exec_bx). -/
def exec_bx (c : Core) (bus : Bus) (insn : ArmInstruction) : Outcome :=
  let rn := c.get_reg insn.rn
  let c :=
    if rn.testBit 0 then { c with cpsr := c.cpsr.set_state .THUMB }
    else { c with cpsr := c.cpsr.set_state .ARM }
  let c := { c with pc := rn &&& (2 ^ 32 - 2) }
  ⟨c, bus, .ok .Flush⟩

/-- Software interrupt (exec_swi). -/
def exec_swi (c : Core) (bus : Bus) (_insn : ArmInstruction) : Outcome :=
  ⟨c.exception .SoftwareInterrupt, bus, .ok .Flush⟩

/-- Status register transfer from a register (exec_msr_reg). -/
def exec_msr_reg (c : Core) (bus : Bus) (insn : ArmInstruction) : Outcome :=
  let new_psr := RegPSR.new (c.get_reg insn.rm)
  match c.cpsr.mode with
  | none => ⟨c, bus, .error (.panicked .invalidPsrMode)⟩
  | some old_mode =>
    if insn.spsr_flag then
      match old_mode.spsr_index with
      | some index =>
          ⟨{ c with spsr := Function.update c.spsr index new_psr }, bus, .ok .IncPC⟩
      | none => ⟨c, bus, .error (.panicked .spsrInvalidMode)⟩
    else
      match new_psr.mode with
      | none => ⟨c, bus, .error (.panicked .invalidPsrMode)⟩
      | some new_mode =>
          let c := if old_mode ≠ new_mode then c.change_mode new_mode else c
          ⟨{ c with cpsr := new_psr }, bus, .ok .IncPC⟩

/-- Operand 1 of data processing: the register value, except that
operand register 15 yields the raw current pc field. -/
def dp_op1 (c : Core) (insn : ArmInstruction) : Int :=
  if insn.rn = REG_PC then toI32 c.pc else toI32 (c.get_reg insn.rn)

/-- Operand 2 of data processing: a rotated immediate, or a register
passed through the shifter, which charges one internal cycle; the
plain-immediate variant is the unreachable arm of the source match. -/
def dp_op2 (c : Core) (insn : ArmInstruction) : Core × Except CpuFatal Int :=
  match insn.operand2 with
  | .RotatedImmediate imm rot => (c, .ok (toI32 (rotateRight32 imm rot)))
  | .ShiftedRegister reg shift _added =>
      let c := c.add_cycle
      match c.register_shift reg shift with
      | .ok r => (c, .ok r)
      | .error e => (c, .error (.err e))
  | .ImmediateValue _ => (c, .error (.panicked .unreachableOperand2))

/-- Data processing (exec_data_processing). -/
def exec_data_processing (c : Core) (bus : Bus) (insn : ArmInstruction) : Outcome :=
  let op1 := dp_op1 c insn
  let rd := insn.rd
  match dp_op2 c insn with
  | (c, .error e) => ⟨c, bus, .error e⟩
  | (c, .ok op2) =>
    let opcode := insn.opcode
    let set_flags := opcode.is_setting_flags || insn.set_cond_flag
    match c.alu opcode op1 op2 set_flags with
    | (c, some result) =>
        let c := c.set_reg rd (toU32 result)
        ⟨c, bus, .ok (if rd = REG_PC then .Flush else .IncPC)⟩
    | (c, none) => ⟨c, bus, .ok .IncPC⟩

/-- The base address of a single data transfer: the base register
value, except that base register 15 yields the prefetch-adjusted
address of the instruction plus 8. -/
def ldr_str_base (c : Core) (insn : ArmInstruction) : Nat :=
  let addr := c.get_reg insn.rn
  if insn.rn = REG_PC then (insn.pc + 8) % 2 ^ 32 else addr

/-- The effective address: base plus signed offset, with i32 wrapping
and reinterpretation as an unsigned address. -/
def effective_address (base : Nat) (offset : Int) : Nat :=
  toU32 (wadd32 (toI32 base) offset)

/-- The address a word or byte single data transfer accesses: the
effective address when pre-indexing, the unmodified base otherwise. -/
def ldr_str_access_addr (c : Core) (insn : ArmInstruction) : Nat :=
  if insn.pre_index_flag then
    effective_address (ldr_str_base c insn)
      (c.get_barrel_shifted_value insn.ldr_str_offset)
  else ldr_str_base c insn

/-- Word or byte single data transfer (exec_ldr_str). -/
def exec_ldr_str (c : Core) (bus : Bus) (insn : ArmInstruction) : Outcome :=
  if insn.write_back_flag = true ∧ insn.rd = insn.rn then
    ⟨c, bus, .error (.err .IllegalInstruction)⟩
  else
    let effective_addr :=
      effective_address (ldr_str_base c insn)
        (c.get_barrel_shifted_value insn.ldr_str_offset)
    let addr := ldr_str_access_addr c insn
    let step :=
      if insn.load_flag then
        let dbus :=
          if insn.transfer_size = 1 then bus.load_8 addr
          else bus.load_32 addr
        let c := c.set_reg insn.rd dbus.1
        let c := c.add_cycle
        let act :=
          if insn.rd = REG_PC then CpuPipelineAction.Flush
          else CpuPipelineAction.IncPC
        (c, dbus.2, act)
      else
        let value :=
          if insn.rd = REG_PC then (insn.pc + 12) % 2 ^ 32
          else c.get_reg insn.rd
        let bus :=
          if insn.transfer_size = 1 then bus.store_8 addr value
          else bus.store_32 addr value
        (c, bus, CpuPipelineAction.IncPC)
    let c := step.1
    let c := if insn.write_back_flag then c.set_reg insn.rn effective_addr else c
    ⟨c, step.2.1, .ok step.2.2⟩

/-- The address a halfword or signed single data transfer accesses. -/
def ldr_str_hs_access_addr (c : Core) (insn : ArmInstruction) : Nat :=
  if insn.pre_index_flag then
    effective_address (ldr_str_base c insn)
      (c.get_barrel_shifted_value insn.ldr_str_hs_offset)
  else ldr_str_base c insn

/-- Halfword and signed single data transfer (exec_ldr_str_hs). -/
def exec_ldr_str_hs (c : Core) (bus : Bus) (insn : ArmInstruction) : Outcome :=
  if insn.write_back_flag = true ∧ insn.rd = insn.rn then
    ⟨c, bus, .error (.err .IllegalInstruction)⟩
  else
    let effective_addr :=
      effective_address (ldr_str_base c insn)
        (c.get_barrel_shifted_value insn.ldr_str_hs_offset)
    let addr := ldr_str_hs_access_addr c insn
    if insn.load_flag then
      let dbus :=
        match insn.halfword_data_transfer_type with
        | .SignedByte =>
            let lb := bus.load_8 addr
            (signExtend8 lb.1, lb.2)
        | .SignedHalfwords =>
            let lh := bus.load_16 addr
            (signExtend16 lh.1, lh.2)
        | .UnsignedHalfwords =>
            let lh := bus.load_16 addr
            (lh.1 % 2 ^ 32, lh.2)
      let c := c.set_reg insn.rd dbus.1
      let c := c.add_cycle
      let act :=
        if insn.rd = REG_PC then CpuPipelineAction.Flush
        else CpuPipelineAction.IncPC
      let c := if insn.write_back_flag then c.set_reg insn.rn effective_addr else c
      ⟨c, dbus.2, .ok act⟩
    else
      let value :=
        if insn.rd = REG_PC then (insn.pc + 12) % 2 ^ 32
        else c.get_reg insn.rd
      match insn.halfword_data_transfer_type with
      | .UnsignedHalfwords =>
          let bus := bus.store_16 addr value
          let c := if insn.write_back_flag then c.set_reg insn.rn effective_addr else c
          ⟨c, bus, .ok .IncPC⟩
      | _ => ⟨c, bus, .error (.panicked .invalidHsFlags)⟩

/-- One load step of a block transfer: optional pre-step, cycle charge,
word load into the register, flush on register 15, optional post-step. -/
def ldm_step (full : Bool) (step : Int)
    (acc : Core × Bus × Int × CpuPipelineAction) (r : Fin 16) :
    Core × Bus × Int × CpuPipelineAction :=
  let addr := if full then wadd32 acc.2.2.1 step else acc.2.2.1
  let c := acc.1.add_cycle
  let vb := acc.2.1.load_32 (toU32 addr)
  let c := c.set_reg r vb.1
  let act := if r = REG_PC then CpuPipelineAction.Flush else acc.2.2.2
  let addr2 := if full then addr else wadd32 addr step
  (c, vb.2, addr2, act)

/-- One store step of a block transfer: optional pre-step, word store
of the register (register 15 stores the instruction address plus 12),
optional post-step. -/
def stm_step (full : Bool) (step : Int) (insnpc : Nat) (c : Core)
    (acc : Bus × Int) (r : Fin 16) : Bus × Int :=
  let addr := if full then wadd32 acc.2 step else acc.2
  let val := if r = REG_PC then (insnpc + 12) % 2 ^ 32 else c.get_reg r
  let bus := acc.1.store_32 (toU32 addr) val
  let addr2 := if full then addr else wadd32 addr step
  (bus, addr2)

/-- Block data transfer (exec_ldm_stm).  The base address is read from
the raw gpr array; the register list is traversed reversed for
descending transfers; loading a list containing the base register
suppresses writeback; the PSR-force-user variant panics. -/
def exec_ldm_stm (c : Core) (bus : Bus) (insn : ArmInstruction) : Outcome :=
  let full := insn.pre_index_flag
  let ascending := insn.add_offset_flag
  let is_load := insn.load_flag
  let rn := insn.rn
  let addr : Int := toI32 (c.gpr rn)
  let step : Int := if ascending then 4 else -4
  let rlist := if ascending then insn.register_list else insn.register_list.reverse
  if insn.psr_and_force_user_flag then
    ⟨c, bus, .error (.panicked .unimplementedUserTransfer)⟩
  else if is_load then
    let writeback := if rn ∈ rlist then false else insn.write_back_flag
    let fin := rlist.foldl (ldm_step full step) (c, bus, addr, CpuPipelineAction.IncPC)
    let c := if writeback then fin.1.set_reg rn (toU32 fin.2.2.1) else fin.1
    ⟨c, fin.2.1, .ok fin.2.2.2⟩
  else
    let fin := rlist.foldl (stm_step full step insn.pc c) (bus, addr)
    let c := if insn.write_back_flag then c.set_reg rn (toU32 fin.2) else c
    ⟨c, fin.1, .ok CpuPipelineAction.IncPC⟩

/-- The top-level dispatcher (exec_arm): evaluate the condition field
first, a failing condition is a no-op that advances the pipeline; then
dispatch on the format class; formats without a handler produce the
unimplemented-instruction error. -/
def exec_arm (c : Core) (bus : Bus) (insn : ArmInstruction) : Outcome :=
  if !c.check_arm_cond insn.cond then ⟨c, bus, .ok .IncPC⟩
  else
    match insn.fmt with
    | .BX => exec_bx c bus insn
    | .B_BL => exec_b_bl c bus insn
    | .DP => exec_data_processing c bus insn
    | .SWI => exec_swi c bus insn
    | .LDR_STR => exec_ldr_str c bus insn
    | .LDR_STR_HS_IMM => exec_ldr_str_hs c bus insn
    | .LDR_STR_HS_REG => exec_ldr_str_hs c bus insn
    | .LDM_STM => exec_ldm_stm c bus insn
    | .MSR_REG => exec_msr_reg c bus insn
    | _ => ⟨c, bus, .error (.err (.UnimplementedCpuInstruction insn.pc insn.raw))⟩

/-
Helper lemmas shared by the claim theorems.
-/

theorem Core.get_set_same (c : Core) (r : Fin 16) (v : Nat) :
    (c.set_reg r v).get_reg r = v % 2 ^ 32 := by
  unfold Core.set_reg Core.get_reg
  by_cases h : r = REG_PC
  · simp [h]
  · simp [h, Function.update_same]

theorem Core.get_set_other (c : Core) (r s : Fin 16) (v : Nat) (h : s ≠ r) :
    (c.set_reg r v).get_reg s = c.get_reg s := by
  unfold Core.set_reg Core.get_reg
  by_cases hr : r = REG_PC
  · subst hr
    simp [h]
  · by_cases hs : s = REG_PC
    · simp [hr, hs]
    · simp [hr, hs, Function.update_noteq h]

theorem Core.get_add_cycle (c : Core) (r : Fin 16) :
    (c.add_cycle).get_reg r = c.get_reg r := rfl

theorem toU32_lt (x : Int) : toU32 x < 2 ^ 32 := by
  unfold toU32
  omega

theorem toU32_mod_self (x : Int) : toU32 x % 2 ^ 32 = toU32 x :=
  Nat.mod_eq_of_lt (toU32_lt x)

theorem wadd32_emod (a b : Int) : wadd32 a b % 2 ^ 32 = (a + b) % 2 ^ 32 := by
  unfold wadd32 wrapSigned32
  omega

theorem toI32_emod (n : Nat) : toI32 n % 2 ^ 32 = (n : Int) % 2 ^ 32 := by
  unfold toI32 wrapSigned32
  omega

theorem toU32_congr {x y : Int} (h : x % 2 ^ 32 = y % 2 ^ 32) :
    toU32 x = toU32 y := by
  unfold toU32
  rw [h]

theorem emod_add_congr (x y k : Int) (h : x % 2 ^ 32 = y % 2 ^ 32) :
    (x + k) % 2 ^ 32 = (y + k) % 2 ^ 32 := by
  omega

theorem stm_step_addr (full : Bool) (step : Int) (insnpc : Nat) (c : Core)
    (acc : Bus × Int) (r : Fin 16) :
    (stm_step full step insnpc c acc r).2 = wadd32 acc.2 step := by
  cases full <;> rfl

theorem ldm_step_addr (full : Bool) (step : Int)
    (acc : Core × Bus × Int × CpuPipelineAction) (r : Fin 16) :
    (ldm_step full step acc r).2.2.1 = wadd32 acc.2.2.1 step := by
  cases full <;> rfl

theorem stm_loop_addr (full : Bool) (step : Int) (insnpc : Nat) (c : Core) :
    ∀ (l : List (Fin 16)) (acc : Bus × Int),
      (l.foldl (stm_step full step insnpc c) acc).2 % 2 ^ 32 =
        (acc.2 + l.length * step) % 2 ^ 32 := by
  intro l
  induction l with
  | nil =>
      intro acc
      simp
  | cons r t ih =>
      intro acc
      rw [List.foldl_cons]
      have h2 := ih (stm_step full step insnpc c acc r)
      rw [stm_step_addr] at h2
      rw [h2, emod_add_congr (wadd32 acc.2 step) (acc.2 + step)
        (t.length * step) (wadd32_emod acc.2 step)]
      congr 1
      simp [List.length_cons]
      ring

/-
Concrete inputs used by witnesses and counterexamples.
-/

/-- An all-zero memory with an empty access trace. -/
def bus0 : Bus := ⟨fun _ => 0, []⟩

/-- A memory holding byte 0xFF everywhere, with an empty trace. -/
def busFF : Bus := ⟨fun _ => 0xFF, []⟩

/-- A baseline core: registers clear, User mode, ARM state. -/
def core0 : Core :=
  { gpr := fun _ => 0, pc := 0, cpsr := ⟨0x10⟩, spsr := fun _ => ⟨0x10⟩,
    cycles := 0, modeChanges := [] }

/-- A baseline decoded instruction; each concrete test adjusts the
fields it exercises. -/
def insn0 : ArmInstruction :=
  { cond := .AL, fmt := .DP, pc := 100, raw := 0,
    rn := 0, rd := 1, rm := 2,
    link_flag := false, load_flag := false, write_back_flag := false,
    pre_index_flag := false, add_offset_flag := true, spsr_flag := false,
    set_cond_flag := false, psr_and_force_user_flag := false,
    branch_offset := 0, transfer_size := 4,
    halfword_data_transfer_type := .UnsignedHalfwords,
    opcode := .MOV, operand2 := .RotatedImmediate 0 0,
    ldr_str_offset := .ImmediateValue 0, ldr_str_hs_offset := .ImmediateValue 0,
    register_list := [] }

/-
Claim theorems.
-/

/-- Claim C1: for every decoded ARM instruction whose condition field
evaluates false against the current flags, exec_arm leaves the core
(registers, status registers, cycle counter) and the bus (memory and
access trace) unchanged and returns the IncPC pipeline action. -/
theorem claim_C1_cond_fail_no_op (c : Core) (bus : Bus) (insn : ArmInstruction)
    (h : c.check_arm_cond insn.cond = false) :
    exec_arm c bus insn = ⟨c, bus, .ok .IncPC⟩ := by
  simp [exec_arm, h]

/-- Witness for C1: an EQ-conditioned instruction with the Z flag clear
executes as a pure no-op that advances the pipeline. -/
theorem claim_C1_witness :
    exec_arm core0 bus0 { insn0 with cond := ArmCond.EQ } =
      ⟨core0, bus0, .ok .IncPC⟩ :=
  claim_C1_cond_fail_no_op core0 bus0 { insn0 with cond := ArmCond.EQ } (by decide)

/-- Claim C5: for both single-data-transfer handlers, requesting
writeback with destination equal to base fails upfront with the
illegal-instruction error, leaving core and bus untouched, for every
other field combination. -/
theorem claim_C5_writeback_base_eq_dest_illegal (c : Core) (bus : Bus)
    (insn : ArmInstruction) (h1 : insn.write_back_flag = true)
    (h2 : insn.rd = insn.rn) :
    exec_ldr_str c bus insn = ⟨c, bus, .error (.err .IllegalInstruction)⟩ ∧
      exec_ldr_str_hs c bus insn = ⟨c, bus, .error (.err .IllegalInstruction)⟩ := by
  constructor
  · unfold exec_ldr_str
    rw [if_pos ⟨h1, h2⟩]
  · unfold exec_ldr_str_hs
    rw [if_pos ⟨h1, h2⟩]

/-- Witness for C5: a concrete load with writeback and rd = rn = 3 is
rejected by both handlers with the state returned unchanged. -/
theorem claim_C5_witness :
    exec_ldr_str core0 bus0
        { insn0 with write_back_flag := true, load_flag := true, rd := 3, rn := 3 } =
      ⟨core0, bus0, .error (.err .IllegalInstruction)⟩ ∧
    exec_ldr_str_hs core0 bus0
        { insn0 with write_back_flag := true, load_flag := true, rd := 3, rn := 3 } =
      ⟨core0, bus0, .error (.err .IllegalInstruction)⟩ :=
  claim_C5_writeback_base_eq_dest_illegal core0 bus0
    { insn0 with write_back_flag := true, load_flag := true, rd := 3, rn := 3 }
    (by decide) (by decide)

theorem Core.pc_set_reg_14 (c : Core) (v : Nat) : (c.set_reg 14 v).pc = c.pc := by
  unfold Core.set_reg
  rw [if_neg (by decide : ¬ ((14 : Fin 16) = REG_PC))]

theorem effaddr_eq (base : Nat) (offset : Int) :
    toU32 (wadd32 (toI32 base) offset) = (((base : Int) + offset) % 2 ^ 32).toNat :=
  toU32_congr ((wadd32_emod _ _).trans (emod_add_congr _ _ _ (toI32_emod base)))

/-- Claim C10: address and branch-target arithmetic wraps modulo 2 ^ 32:
the effective address of a single data transfer is (base + offset) mod
2 ^ 32; the branch target is (pc + offset) mod 2 ^ 32 with bit 0
cleared (and the branch always flushes); and each address step of a
block transfer (load and store, pre and post indexed) wraps modulo
2 ^ 32, for any step, in particular the ±4 steps the handler uses. -/
theorem claim_C10_wrapping_address_arithmetic :
    (∀ (base : Nat) (offset : Int),
      effective_address base offset = (((base : Int) + offset) % 2 ^ 32).toNat) ∧
    (∀ (c : Core) (bus : Bus) (insn : ArmInstruction),
      (exec_b_bl c bus insn).core.pc =
        ((((c.pc : Int) + insn.branch_offset) % 2 ^ 32).toNat) &&& (2 ^ 32 - 2) ∧
      (exec_b_bl c bus insn).res = .ok .Flush) ∧
    (∀ (full : Bool) (step : Int) (insnpc : Nat) (c : Core) (acc : Bus × Int)
        (r : Fin 16),
      (stm_step full step insnpc c acc r).2 % 2 ^ 32 = (acc.2 + step) % 2 ^ 32) ∧
    (∀ (full : Bool) (step : Int) (acc : Core × Bus × Int × CpuPipelineAction)
        (r : Fin 16),
      (ldm_step full step acc r).2.2.1 % 2 ^ 32 = (acc.2.2.1 + step) % 2 ^ 32) := by
  refine ⟨?_, ?_, ?_, ?_⟩
  · intro base offset
    exact effaddr_eq base offset
  · intro c bus insn
    constructor
    · unfold exec_b_bl
      dsimp only
      by_cases hl : insn.link_flag
      · rw [if_pos hl, Core.pc_set_reg_14, effaddr_eq]
      · rw [if_neg hl, effaddr_eq]
    · unfold exec_b_bl
      by_cases hl : insn.link_flag <;> simp [hl]
  · intro full step insnpc c acc r
    rw [stm_step_addr]
    exact wadd32_emod acc.2 step
  · intro full step acc r
    rw [ldm_step_addr]
    exact wadd32_emod acc.2.2.1 step

/-- Claim C7: a block-transfer load whose register list contains the
base register executes identically whether or not the writeback flag is
set (writeback suppressed), for all traversal directions and indexing
modes; a block-transfer store with the writeback flag always writes the
final stepped address, base plus 4 times the list length in the chosen
direction wrapped modulo 2 ^ 32, back to the base register, with no
suppression. -/
theorem claim_C7_ldm_writeback_suppression (c : Core) (bus : Bus)
    (insn : ArmInstruction) (hp : insn.psr_and_force_user_flag = false) :
    (insn.load_flag = true → insn.rn ∈ insn.register_list →
      exec_ldm_stm c bus { insn with write_back_flag := true } =
        exec_ldm_stm c bus { insn with write_back_flag := false }) ∧
    (insn.load_flag = false → insn.write_back_flag = true →
      (exec_ldm_stm c bus insn).core.get_reg insn.rn =
        toU32 (toI32 (c.gpr insn.rn) +
          insn.register_list.length * (if insn.add_offset_flag then (4 : Int) else -4))) := by
  constructor
  · intro hl hm
    by_cases ha : insn.add_offset_flag <;>
      simp [exec_ldm_stm, hl, hp, ha, hm, List.mem_reverse]
  · intro hl hw
    by_cases ha : insn.add_offset_flag
    · simp only [exec_ldm_stm, hl, hp, ha, hw, if_true, if_false, Bool.false_eq_true,
        ite_true, ite_false]
      rw [Core.get_set_same, toU32_mod_self]
      exact toU32_congr (stm_loop_addr insn.pre_index_flag (4 : Int) insn.pc c
        insn.register_list (bus, toI32 (c.gpr insn.rn)))
    · simp only [exec_ldm_stm, hl, hp, ha, hw, if_true, if_false, Bool.false_eq_true,
        ite_true, ite_false]
      rw [Core.get_set_same, toU32_mod_self]
      have h := stm_loop_addr insn.pre_index_flag (-4 : Int) insn.pc c
        insn.register_list.reverse (bus, toI32 (c.gpr insn.rn))
      rw [List.length_reverse] at h
      exact toU32_congr h

/-- A core with 100 in register 3 (block-store base for tests). -/
def coreC7 : Core := { core0 with gpr := fun r => if r = 3 then 100 else 0 }

/-- Witness for C7: an LDM of registers 0,1,2 with base register 1 in
the list behaves identically with and without the writeback flag, and a
concrete ascending STM of three registers with writeback leaves base
100 + 12 = 112 in the base register. -/
theorem claim_C7_witness :
    exec_ldm_stm core0 bus0
        { insn0 with load_flag := true, write_back_flag := true, rn := 1,
                     register_list := [0, 1, 2] } =
      exec_ldm_stm core0 bus0
        { insn0 with load_flag := true, write_back_flag := false, rn := 1,
                     register_list := [0, 1, 2] } ∧
    (exec_ldm_stm coreC7 bus0
        { insn0 with load_flag := false, write_back_flag := true, rn := 3,
                     register_list := [0, 1, 2] }).core.get_reg 3 = 112 := by
  have h1 := claim_C7_ldm_writeback_suppression core0 bus0
    { insn0 with load_flag := true, rn := 1, register_list := [0, 1, 2] } (by decide)
  have h2 := claim_C7_ldm_writeback_suppression coreC7 bus0
    { insn0 with load_flag := false, write_back_flag := true, rn := 3,
                 register_list := [0, 1, 2] } (by decide)
  exact ⟨h1.1 (by decide) (by decide), (h2.2 (by decide) (by decide)).trans (by decide)⟩

theorem effective_address_lt (b : Nat) (o : Int) : effective_address b o < 2 ^ 32 :=
  toU32_lt _

theorem effective_address_mod (b : Nat) (o : Int) :
    effective_address b o % 2 ^ 32 = effective_address b o :=
  Nat.mod_eq_of_lt (effective_address_lt b o)

theorem exec_ldr_str_single_access (c : Core) (bus : Bus) (insn : ArmInstruction)
    (hguard : ¬ (insn.write_back_flag = true ∧ insn.rd = insn.rn)) :
    ∃ x, (exec_ldr_str c bus insn).bus.trace = bus.trace ++ [x] ∧
      x.addrOf = ldr_str_access_addr c insn := by
  by_cases hload : insn.load_flag
  · by_cases hsize : insn.transfer_size = 1
    · refine ⟨.read8 (ldr_str_access_addr c insn), ?_, rfl⟩
      unfold exec_ldr_str
      rw [if_neg hguard]
      dsimp only
      rw [if_pos hload, if_pos hsize]
      rfl
    · refine ⟨.read32 (ldr_str_access_addr c insn), ?_, rfl⟩
      unfold exec_ldr_str
      rw [if_neg hguard]
      dsimp only
      rw [if_pos hload, if_neg hsize]
      rfl
  · by_cases hsize : insn.transfer_size = 1
    · refine ⟨.write8 (ldr_str_access_addr c insn)
        (if insn.rd = REG_PC then (insn.pc + 12) % 2 ^ 32 else c.get_reg insn.rd),
        ?_, rfl⟩
      unfold exec_ldr_str
      rw [if_neg hguard]
      dsimp only
      rw [if_neg hload, if_pos hsize]
      rfl
    · refine ⟨.write32 (ldr_str_access_addr c insn)
        (if insn.rd = REG_PC then (insn.pc + 12) % 2 ^ 32 else c.get_reg insn.rd),
        ?_, rfl⟩
      unfold exec_ldr_str
      rw [if_neg hguard]
      dsimp only
      rw [if_neg hload, if_neg hsize]
      rfl

theorem exec_ldr_str_hs_single_access (c : Core) (bus : Bus) (insn : ArmInstruction)
    (hguard : ¬ (insn.write_back_flag = true ∧ insn.rd = insn.rn))
    (hst : insn.load_flag = false →
      insn.halfword_data_transfer_type = ArmHalfwordTransferType.UnsignedHalfwords) :
    ∃ x, (exec_ldr_str_hs c bus insn).bus.trace = bus.trace ++ [x] ∧
      x.addrOf = ldr_str_hs_access_addr c insn := by
  by_cases hload : insn.load_flag
  · cases hty : insn.halfword_data_transfer_type
    · refine ⟨.read8 (ldr_str_hs_access_addr c insn), ?_, rfl⟩
      unfold exec_ldr_str_hs
      rw [if_neg hguard]
      dsimp only
      rw [if_pos hload, hty]
      rfl
    · refine ⟨.read16 (ldr_str_hs_access_addr c insn), ?_, rfl⟩
      unfold exec_ldr_str_hs
      rw [if_neg hguard]
      dsimp only
      rw [if_pos hload, hty]
      rfl
    · refine ⟨.read16 (ldr_str_hs_access_addr c insn), ?_, rfl⟩
      unfold exec_ldr_str_hs
      rw [if_neg hguard]
      dsimp only
      rw [if_pos hload, hty]
      rfl
  · have hty := hst (by simpa using hload)
    refine ⟨.write16 (ldr_str_hs_access_addr c insn)
      (if insn.rd = REG_PC then (insn.pc + 12) % 2 ^ 32 else c.get_reg insn.rd),
      ?_, rfl⟩
    unfold exec_ldr_str_hs
    rw [if_neg hguard]
    dsimp only
    rw [if_neg hload, hty]
    rfl

theorem exec_ldr_str_writeback (c : Core) (bus : Bus) (insn : ArmInstruction)
    (hw : insn.write_back_flag = true) (hne : insn.rd ≠ insn.rn) :
    (exec_ldr_str c bus insn).core.get_reg insn.rn =
      effective_address (ldr_str_base c insn)
        (c.get_barrel_shifted_value insn.ldr_str_offset) := by
  have hguard : ¬ (insn.write_back_flag = true ∧ insn.rd = insn.rn) :=
    fun hcon => hne hcon.2
  by_cases hload : insn.load_flag <;> by_cases hsize : insn.transfer_size = 1 <;>
    simp [exec_ldr_str, hguard, hload, hsize, hw, hne, Core.get_set_same,
      effective_address_mod] <;>
    exact effective_address_lt _ _

theorem exec_ldr_str_hs_writeback (c : Core) (bus : Bus) (insn : ArmInstruction)
    (hw : insn.write_back_flag = true) (hne : insn.rd ≠ insn.rn)
    (hst : insn.load_flag = false →
      insn.halfword_data_transfer_type = ArmHalfwordTransferType.UnsignedHalfwords) :
    (exec_ldr_str_hs c bus insn).core.get_reg insn.rn =
      effective_address (ldr_str_base c insn)
        (c.get_barrel_shifted_value insn.ldr_str_hs_offset) := by
  have hguard : ¬ (insn.write_back_flag = true ∧ insn.rd = insn.rn) :=
    fun hcon => hne hcon.2
  by_cases hload : insn.load_flag
  · cases hty : insn.halfword_data_transfer_type <;>
      simp [exec_ldr_str_hs, hguard, hload, hty, hw, hne, Core.get_set_same,
        effective_address_mod] <;>
      exact effective_address_lt _ _
  · have hty := hst (by simpa using hload)
    simp [exec_ldr_str_hs, hguard, hload, hty, hw, hne, Core.get_set_same,
      effective_address_mod]
    exact effective_address_lt _ _

/-- A core with 100 in register 0 (single-transfer base for tests). -/
def coreC2 : Core := { core0 with gpr := fun r => if r = 0 then 100 else 0 }

/-- A post-indexed byte load, base register 0, offset 4, writeback flag
clear. -/
def insnC2 : ArmInstruction :=
  { insn0 with
    fmt := .LDR_STR, load_flag := true, transfer_size := 1,
    pre_index_flag := false, write_back_flag := false, rn := 0, rd := 1,
    ldr_str_offset := .ImmediateValue 4 }

/-- Counterexample for C2: a post-indexed transfer with the writeback
flag clear leaves the base register at 100, not at the effective
address 104, so the effective address is not written back regardless of
the other instruction fields. -/
theorem claim_C2_counterexample :
    (exec_ldr_str coreC2 bus0 insnC2).core.get_reg 0 = 100 ∧
    effective_address (ldr_str_base coreC2 insnC2)
      (coreC2.get_barrel_shifted_value insnC2.ldr_str_offset) = 104 ∧
    (100 : Nat) ≠ 104 := by
  decide

/-- Claim C2 (amended): for post-indexed single data transfers of both
forms, the memory access uses the unmodified base address, and the
effective address (base plus signed offset) is written back to the base
register if and only if the writeback flag is set (the code performs no
writeback when the flag is clear; the flag together with rd = rn is
rejected upfront). -/
theorem claim_C2_post_index_access_and_writeback (c : Core) (bus : Bus)
    (insn : ArmInstruction) (hpost : insn.pre_index_flag = false)
    (hwb : insn.write_back_flag = true → insn.rd ≠ insn.rn)
    (hst : insn.load_flag = false →
      insn.halfword_data_transfer_type = ArmHalfwordTransferType.UnsignedHalfwords) :
    (∀ a ∈ (exec_ldr_str c bus insn).bus.trace.drop bus.trace.length,
        a.addrOf = ldr_str_base c insn) ∧
    (insn.write_back_flag = true →
      (exec_ldr_str c bus insn).core.get_reg insn.rn =
        effective_address (ldr_str_base c insn)
          (c.get_barrel_shifted_value insn.ldr_str_offset)) ∧
    (∀ a ∈ (exec_ldr_str_hs c bus insn).bus.trace.drop bus.trace.length,
        a.addrOf = ldr_str_base c insn) ∧
    (insn.write_back_flag = true →
      (exec_ldr_str_hs c bus insn).core.get_reg insn.rn =
        effective_address (ldr_str_base c insn)
          (c.get_barrel_shifted_value insn.ldr_str_hs_offset)) := by
  have hguard : ¬ (insn.write_back_flag = true ∧ insn.rd = insn.rn) :=
    fun hcon => hwb hcon.1 hcon.2
  refine ⟨?_, ?_, ?_, ?_⟩
  · intro a ha
    obtain ⟨x, hx, haddr⟩ := exec_ldr_str_single_access c bus insn hguard
    rw [hx, List.drop_left] at ha
    have hax : a = x := by simpa using ha
    rw [hax, haddr]
    simp [ldr_str_access_addr, hpost]
  · intro hw
    exact exec_ldr_str_writeback c bus insn hw (hwb hw)
  · intro a ha
    obtain ⟨x, hx, haddr⟩ := exec_ldr_str_hs_single_access c bus insn hguard hst
    rw [hx, List.drop_left] at ha
    have hax : a = x := by simpa using ha
    rw [hax, haddr]
    simp [ldr_str_hs_access_addr, hpost]
  · intro hw
    exact exec_ldr_str_hs_writeback c bus insn hw (hwb hw) hst

/-- Witness for C2 (amended): the same post-indexed byte load with the
writeback flag set does write 104 back into base register 0. -/
theorem claim_C2_witness :
    (exec_ldr_str coreC2 bus0 { insnC2 with write_back_flag := true }).core.get_reg 0
      = 104 := by
  have h := claim_C2_post_index_access_and_writeback coreC2 bus0
    { insnC2 with write_back_flag := true } (by decide) (by decide) (by decide)
  exact (h.2.1 (by decide)).trans (by decide)

/-- A single-register ascending post-indexed LDM with base register 15
(the raw gpr slot of register 15 holds 0 while the instruction address
is 100). -/
def insnC3 : ArmInstruction :=
  { insn0 with
    fmt := .LDM_STM, load_flag := true, rn := REG_PC,
    register_list := [1], add_offset_flag := true, pre_index_flag := false }

/-- Counterexample for C3: the block-transfer base read of register 15
uses the raw stored gpr value 0, not the prefetch-adjusted value
insn.pc + 8 = 108: the memory access goes to address 0. -/
theorem claim_C3_counterexample :
    (exec_ldm_stm core0 bus0 insnC3).bus.trace = [MemAccess.read32 0] ∧
    (insnC3.pc + 8) % 2 ^ 32 = 108 ∧ (0 : Nat) ≠ 108 := by
  decide

/-- Claim C3 (amended): the base-register read of register 15 by the
single data transfer handlers (both forms share ldr_str_base) yields
the prefetch-adjusted instruction address plus 8; the block data
transfer handler instead reads the raw stored gpr slot of the base
register, exhibited on singleton register lists (ascending,
post-indexed). -/
theorem claim_C3_r15_operand_reads (c : Core) (bus : Bus) (insn : ArmInstruction) :
    (insn.rn = REG_PC → ldr_str_base c insn = (insn.pc + 8) % 2 ^ 32) ∧
    (insn.psr_and_force_user_flag = false → insn.load_flag = true →
      insn.add_offset_flag = true → insn.pre_index_flag = false →
      ∀ r, insn.register_list = [r] →
        (exec_ldm_stm c bus insn).bus.trace =
          bus.trace ++ [MemAccess.read32 (toU32 (toI32 (c.gpr insn.rn)))]) := by
  constructor
  · intro h
    simp [ldr_str_base, h]
  · intro hp hl ha hpre r hrl
    simp [exec_ldm_stm, hp, hl, ha, hpre, hrl, ldm_step, Bus.load_32]

/-- Witness for C3 (amended): with instruction address 100, the
single-transfer base read of register 15 yields 108, while a concrete
block load with base register 15 and gpr slot 0 accesses address 0. -/
theorem claim_C3_witness :
    ldr_str_base core0 { insn0 with rn := REG_PC } = 108 ∧
    (exec_ldm_stm core0 bus0 insnC3).bus.trace = [MemAccess.read32 0] := by
  have h1 := (claim_C3_r15_operand_reads core0 bus0 { insn0 with rn := REG_PC }).1 rfl
  have h2 := (claim_C3_r15_operand_reads core0 bus0 insnC3).2 rfl rfl rfl rfl 1 rfl
  exact ⟨h1.trans (by decide), h2.trans (by decide)⟩

theorem toU32_toI32 (n : Nat) : toU32 (toI32 n) = n % 2 ^ 32 := by
  unfold toU32 toI32 wrapSigned32
  omega

/-- Claim C4: data processing reads operand register 15 as the raw pc
field (which differs from the prefetch-adjusted single-transfer base
whenever the raw pc differs from insn.pc + 8 modulo 2 ^ 32); when the
opcode produces a writable result and the destination is register 15
the handler returns flush, and for every destination other than
register 15 it returns advance. -/
theorem claim_C4_dp_raw_pc_and_pipeline (c : Core) (bus : Bus)
    (insn : ArmInstruction) :
    (insn.rn = REG_PC → dp_op1 c insn = toI32 c.pc) ∧
    (insn.rn = REG_PC → c.pc % 2 ^ 32 ≠ (insn.pc + 8) % 2 ^ 32 →
      toU32 (dp_op1 c insn) ≠ ldr_str_base c insn) ∧
    (insn.operand2.dp_valid = true → insn.opcode.produces_result = true →
      insn.rd = REG_PC → (exec_data_processing c bus insn).res = .ok .Flush) ∧
    (insn.operand2.dp_valid = true → insn.rd ≠ REG_PC →
      (exec_data_processing c bus insn).res = .ok .IncPC) := by
  refine ⟨?_, ?_, ?_, ?_⟩
  · intro h
    simp [dp_op1, h]
  · intro h hne heq
    apply hne
    have h1 : dp_op1 c insn = toI32 c.pc := by simp [dp_op1, h]
    have h2 : ldr_str_base c insn = (insn.pc + 8) % 2 ^ 32 := by
      simp [ldr_str_base, h]
    rw [h1, h2, toU32_toI32] at heq
    exact heq
  · intro hv hw hrd
    cases ho : insn.operand2 with
    | ImmediateValue v =>
        rw [ho] at hv
        simp [BarrelShifterValue.dp_valid] at hv
    | RotatedImmediate imm rot =>
        unfold exec_data_processing
        simp only [dp_op2, ho]
        simp [Core.alu, hw, hrd]
    | ShiftedRegister reg shift added =>
        unfold exec_data_processing
        simp only [dp_op2, ho, Core.register_shift]
        simp [Core.alu, hw, hrd]
  · intro hv hrd
    cases ho : insn.operand2 with
    | ImmediateValue v =>
        rw [ho] at hv
        simp [BarrelShifterValue.dp_valid] at hv
    | RotatedImmediate imm rot =>
        unfold exec_data_processing
        simp only [dp_op2, ho]
        by_cases hpr : insn.opcode.produces_result <;> simp [Core.alu, hpr, hrd]
    | ShiftedRegister reg shift added =>
        unfold exec_data_processing
        simp only [dp_op2, ho, Core.register_shift]
        by_cases hpr : insn.opcode.produces_result <;> simp [Core.alu, hpr, hrd]

/-- A core whose raw pc field holds 20. -/
def coreC4 : Core := { core0 with pc := 20 }

/-- An ADD with operand register 15 and destination register 15. -/
def insnC4 : ArmInstruction :=
  { insn0 with rn := REG_PC, rd := REG_PC, opcode := .ADD }

/-- Witness for C4: with the pc field at 20 and instruction address
100, operand 1 reads 20 (not the prefetch-adjusted 108), a writable
result to register 15 flushes, and any other destination advances. -/
theorem claim_C4_witness :
    dp_op1 coreC4 insnC4 = 20 ∧
    toU32 (dp_op1 coreC4 insnC4) ≠ ldr_str_base coreC4 insnC4 ∧
    (exec_data_processing coreC4 bus0 insnC4).res = .ok .Flush ∧
    (exec_data_processing coreC4 bus0 { insnC4 with rd := 0 }).res = .ok .IncPC := by
  have h1 := claim_C4_dp_raw_pc_and_pipeline coreC4 bus0 insnC4
  have h2 := claim_C4_dp_raw_pc_and_pipeline coreC4 bus0 { insnC4 with rd := 0 }
  exact ⟨(h1.1 rfl).trans (by decide), h1.2.1 rfl (by decide),
    h1.2.2.1 (by decide) (by decide) rfl, h2.2.2.2 (by decide) (by decide)⟩

/-- Claim C6: for the register form of MSR, targeting the saved status
register in a mode without a banked slot fails with the corresponding
panic and no state change; targeting it in a mode with a slot writes
the new image into that slot and advances; targeting the current status
register performs exactly one recorded mode change when the mode field
of the new image differs from the current mode (and none when it is
equal) before installing the image, and advances. -/
theorem claim_C6_msr_reg_semantics (c : Core) (bus : Bus) (insn : ArmInstruction)
    (old_mode : CpuMode) (hm : c.cpsr.mode = some old_mode) :
    (insn.spsr_flag = true → old_mode.spsr_index = none →
      exec_msr_reg c bus insn = ⟨c, bus, .error (.panicked .spsrInvalidMode)⟩) ∧
    (∀ i, insn.spsr_flag = true → old_mode.spsr_index = some i →
      exec_msr_reg c bus insn =
        ⟨{ c with spsr := Function.update c.spsr i (RegPSR.new (c.get_reg insn.rm)) },
          bus, .ok .IncPC⟩) ∧
    (∀ new_mode, insn.spsr_flag = false →
      (RegPSR.new (c.get_reg insn.rm)).mode = some new_mode → old_mode ≠ new_mode →
      exec_msr_reg c bus insn =
        ⟨{ c with cpsr := RegPSR.new (c.get_reg insn.rm),
                  modeChanges := c.modeChanges ++ [new_mode] }, bus, .ok .IncPC⟩) ∧
    (insn.spsr_flag = false →
      (RegPSR.new (c.get_reg insn.rm)).mode = some old_mode →
      exec_msr_reg c bus insn =
        ⟨{ c with cpsr := RegPSR.new (c.get_reg insn.rm) }, bus, .ok .IncPC⟩) := by
  refine ⟨?_, ?_, ?_, ?_⟩
  · intro hs hnone
    unfold exec_msr_reg
    rw [hm]
    dsimp only
    rw [if_pos hs, hnone]
  · intro i hs hsome
    unfold exec_msr_reg
    rw [hm]
    dsimp only
    rw [if_pos hs, hsome]
  · intro nm hs hmode hne
    unfold exec_msr_reg
    rw [hm]
    dsimp only
    rw [if_neg (by simp [hs]), hmode]
    dsimp only
    rw [if_pos hne]
    simp [Core.change_mode]
  · intro hs hmode
    unfold exec_msr_reg
    rw [hm]
    dsimp only
    rw [if_neg (by simp [hs]), hmode]
    dsimp only
    rw [if_neg (fun hh => hh rfl)]

/-- A core with the System-mode image 0x1F in register 2 (the MSR
source register of the baseline instruction). -/
def coreC6 : Core := { core0 with gpr := fun r => if r = 2 then 0x1F else 0 }

/-- Witness for C6: from User mode, MSR to SPSR panics (User has no
banked slot); MSR of a System-mode image to CPSR records exactly one
mode change and advances. -/
theorem claim_C6_witness :
    exec_msr_reg core0 bus0 { insn0 with spsr_flag := true } =
      ⟨core0, bus0, .error (.panicked .spsrInvalidMode)⟩ ∧
    (exec_msr_reg coreC6 bus0 insn0).core.modeChanges = [CpuMode.System] ∧
    (exec_msr_reg coreC6 bus0 insn0).res = .ok .IncPC := by
  have h1 := claim_C6_msr_reg_semantics core0 bus0 { insn0 with spsr_flag := true }
    CpuMode.User (by decide)
  have h2 := claim_C6_msr_reg_semantics coreC6 bus0 insn0 CpuMode.User (by decide)
  have h3 := h2.2.2.1 CpuMode.System (by decide) (by decide) (by decide)
  exact ⟨h1.1 (by decide) (by decide), by rw [h3]; decide, by rw [h3]⟩

/-- A core with values 11, 22, 33 in registers 0, 1, 2, base 100 in
register 3 (descending store) and base 88 in register 4 (ascending
store and load). -/
def coreC8 : Core :=
  { core0 with
    gpr := fun r =>
      if r = 0 then 11 else if r = 1 then 22 else if r = 2 then 33
      else if r = 3 then 100 else if r = 4 then 88 else 0 }

/-- Descending (pre-decrement) store of registers 0, 1, 2 from base
register 3. -/
def insnC8d : ArmInstruction :=
  { insn0 with
    fmt := .LDM_STM, load_flag := false, add_offset_flag := false,
    pre_index_flag := true, rn := 3, register_list := [0, 1, 2] }

/-- Ascending (post-increment) store of registers 0, 1, 2 from base
register 4. -/
def insnC8a : ArmInstruction :=
  { insn0 with
    fmt := .LDM_STM, load_flag := false, add_offset_flag := true,
    pre_index_flag := false, rn := 4, register_list := [0, 1, 2] }

/-- Ascending (post-increment) load of registers 0, 1, 2 from base
register 4. -/
def insnC8l : ArmInstruction :=
  { insn0 with
    fmt := .LDM_STM, load_flag := true, add_offset_flag := true,
    pre_index_flag := false, rn := 4, register_list := [0, 1, 2] }

/-- A fresh core for the load back, with only base 88 in register 4. -/
def coreC8L : Core := { core0 with gpr := fun r => if r = 4 then 88 else 0 }

/-- Claim C8: a descending store of registers 0, 1, 2 from base 100
places register 0 at the lowest address 88 and register 2 at the
highest address 96, the same layout an ascending store of the same set
from base 88 produces; loading ascending over that range reproduces the
original register values 11, 22, 33. -/
theorem claim_C8_descending_store_layout_roundtrip :
    ((exec_ldm_stm coreC8 bus0 insnC8d).bus.read32val 88 = 11 ∧
     (exec_ldm_stm coreC8 bus0 insnC8d).bus.read32val 92 = 22 ∧
     (exec_ldm_stm coreC8 bus0 insnC8d).bus.read32val 96 = 33) ∧
    ((exec_ldm_stm coreC8 bus0 insnC8a).bus.read32val 88 = 11 ∧
     (exec_ldm_stm coreC8 bus0 insnC8a).bus.read32val 92 = 22 ∧
     (exec_ldm_stm coreC8 bus0 insnC8a).bus.read32val 96 = 33) ∧
    ((exec_ldm_stm coreC8L (exec_ldm_stm coreC8 bus0 insnC8d).bus
        insnC8l).core.get_reg 0 = 11 ∧
     (exec_ldm_stm coreC8L (exec_ldm_stm coreC8 bus0 insnC8d).bus
        insnC8l).core.get_reg 1 = 22 ∧
     (exec_ldm_stm coreC8L (exec_ldm_stm coreC8 bus0 insnC8d).bus
        insnC8l).core.get_reg 2 = 33) := by
  decide

theorem Bus.read8val_lt (b : Bus) (a : Nat) : b.read8val a < 256 := by
  unfold Bus.read8val
  omega

theorem Bus.read16val_lt (b : Bus) (a : Nat) : b.read16val a < 2 ^ 16 := by
  unfold Bus.read16val Bus.read8val
  omega

theorem signExtend8_mod (n : Nat) : signExtend8 n % 2 ^ 32 = signExtend8 n :=
  toU32_mod_self _

theorem signExtend16_mod (n : Nat) : signExtend16 n % 2 ^ 32 = signExtend16 n :=
  toU32_mod_self _

theorem get_after_load_tail (c : Core) (insn : ArmInstruction) (data eff : Nat)
    (hwb : insn.write_back_flag = true → insn.rd ≠ insn.rn) :
    (if insn.write_back_flag = true then
        ((c.set_reg insn.rd data).add_cycle).set_reg insn.rn eff
      else (c.set_reg insn.rd data).add_cycle).get_reg insn.rd = data % 2 ^ 32 := by
  by_cases hw : insn.write_back_flag
  · rw [if_pos hw, Core.get_set_other _ _ _ _ (hwb hw), Core.get_add_cycle,
      Core.get_set_same]
  · rw [if_neg hw, Core.get_add_cycle, Core.get_set_same]

/-- Claim C9: loads sign-extend or zero-extend the loaded value into
the destination register: the signed-byte and signed-halfword forms
sign-extend the loaded byte or halfword to 32 bits, the unsigned
halfword form and the basic-form byte load zero-extend it. -/
theorem claim_C9_sign_and_zero_extension (c : Core) (bus : Bus)
    (insn : ArmInstruction)
    (hwb : insn.write_back_flag = true → insn.rd ≠ insn.rn)
    (hl : insn.load_flag = true) :
    (insn.halfword_data_transfer_type = .SignedByte →
      (exec_ldr_str_hs c bus insn).core.get_reg insn.rd =
        signExtend8 (bus.read8val (ldr_str_hs_access_addr c insn))) ∧
    (insn.halfword_data_transfer_type = .SignedHalfwords →
      (exec_ldr_str_hs c bus insn).core.get_reg insn.rd =
        signExtend16 (bus.read16val (ldr_str_hs_access_addr c insn))) ∧
    (insn.halfword_data_transfer_type = .UnsignedHalfwords →
      (exec_ldr_str_hs c bus insn).core.get_reg insn.rd =
        bus.read16val (ldr_str_hs_access_addr c insn)) ∧
    (insn.transfer_size = 1 →
      (exec_ldr_str c bus insn).core.get_reg insn.rd =
        bus.read8val (ldr_str_access_addr c insn)) := by
  have hguard : ¬ (insn.write_back_flag = true ∧ insn.rd = insn.rn) :=
    fun hcon => hwb hcon.1 hcon.2
  refine ⟨?_, ?_, ?_, ?_⟩
  · intro hty
    unfold exec_ldr_str_hs
    rw [if_neg hguard]
    dsimp only
    rw [if_pos hl, hty]
    dsimp only
    rw [get_after_load_tail c insn _ _ hwb]
    exact signExtend8_mod _
  · intro hty
    unfold exec_ldr_str_hs
    rw [if_neg hguard]
    dsimp only
    rw [if_pos hl, hty]
    dsimp only
    rw [get_after_load_tail c insn _ _ hwb]
    exact signExtend16_mod _
  · intro hty
    unfold exec_ldr_str_hs
    rw [if_neg hguard]
    dsimp only
    rw [if_pos hl, hty]
    dsimp only
    rw [get_after_load_tail c insn _ _ hwb]
    show (bus.read16val (ldr_str_hs_access_addr c insn) % 2 ^ 32) % 2 ^ 32 =
      bus.read16val (ldr_str_hs_access_addr c insn)
    have h := Bus.read16val_lt bus (ldr_str_hs_access_addr c insn)
    omega
  · intro hsz
    unfold exec_ldr_str
    rw [if_neg hguard]
    dsimp only
    rw [if_pos hl, if_pos hsz]
    dsimp only
    rw [get_after_load_tail c insn _ _ hwb]
    show bus.read8val (ldr_str_access_addr c insn) % 2 ^ 32 =
      bus.read8val (ldr_str_access_addr c insn)
    have h := Bus.read8val_lt bus (ldr_str_access_addr c insn)
    omega

/-- A signed-byte load into register 1 with base register 0. -/
def insnC9s : ArmInstruction :=
  { insn0 with
    fmt := .LDR_STR_HS_IMM, load_flag := true,
    halfword_data_transfer_type := .SignedByte, rn := 0, rd := 1 }

/-- A basic-form unsigned byte load into register 1 with base
register 0. -/
def insnC9u : ArmInstruction :=
  { insn0 with
    fmt := .LDR_STR, load_flag := true, transfer_size := 1, rn := 0, rd := 1 }

/-- Witness for C9: loading the byte 0xFF signed yields 0xFFFFFFFF in
the destination register; loading it as an unsigned byte yields 0xFF. -/
theorem claim_C9_witness :
    (exec_ldr_str_hs core0 busFF insnC9s).core.get_reg 1 = 0xFFFFFFFF ∧
    (exec_ldr_str core0 busFF insnC9u).core.get_reg 1 = 0xFF := by
  have h1 := claim_C9_sign_and_zero_extension core0 busFF insnC9s
    (by decide) (by decide)
  have h2 := claim_C9_sign_and_zero_extension core0 busFF insnC9u
    (by decide) (by decide)
  exact ⟨(h1.1 (by decide)).trans (by decide),
    (h2.2.2.2 (by decide)).trans (by decide)⟩
